import Mathlib

/-!
Verification of the goal-tree scheduler, resource-bounds manager and
recursive goal-execution engine of the task-solving control loop.

Python modules are embedded shallowly:
* dictionaries become insertion-ordered association lists,
* `time.time()` becomes an explicit `now : Rat` argument,
* raised exceptions become `Except String` results,
* opaque Python values (`Any`) become the inductive `PVal`.
-/

set_option maxHeartbeats 1000000

/-- A Python-like dynamic value, used where the source passes `Any` around
(metadata, serialized payloads, backend outputs). -/
inductive PVal where
  | pnull : PVal
  | pbool : Bool → PVal
  | pnum : Rat → PVal
  | pstr : String → PVal
  | plist : List PVal → PVal
  | pdict : List (String × PVal) → PVal

/-- First-match association-list lookup: the semantics of `d.get(k)` /
`d[k]` on a Python dict modelled as an insertion-ordered list. -/
def alistFind {α : Type} (k : String) : List (String × α) → Option α
  | [] => none
  | (k', v) :: rest => if k' = k then some v else alistFind k rest

/-- `d[k] = v` on a Python dict: replace the first binding in place,
or append a fresh one. -/
def alistSet {α : Type} (k : String) (v : α) : List (String × α) → List (String × α)
  | [] => [(k, v)]
  | (k', v') :: rest => if k' = k then (k, v) :: rest else (k', v') :: alistSet k v rest

/-- `k in d` on a Python dict. -/
def alistHas {α : Type} (k : String) (l : List (String × α)) : Bool :=
  (alistFind k l).isSome

namespace GoalTreePy

/-- `GoalStatus` from `main_loop/goal_tree.py`. -/
inductive GoalStatus where
  | pending | in_progress | completed | failed | blocked | cancelled
deriving DecidableEq, Repr

/-- The string tag of a status (`GoalStatus.value` in Python). -/
def GoalStatus.value : GoalStatus → String
  | .pending => "pending"
  | .in_progress => "in_progress"
  | .completed => "completed"
  | .failed => "failed"
  | .blocked => "blocked"
  | .cancelled => "cancelled"

/-- Decode a status tag, as the `GoalStatus(data["status"])` enum call does;
an unknown tag raises, modelled by `none`. -/
def GoalStatus.ofValue : String → Option GoalStatus
  | "pending" => some .pending
  | "in_progress" => some .in_progress
  | "completed" => some .completed
  | "failed" => some .failed
  | "blocked" => some .blocked
  | "cancelled" => some .cancelled
  | _ => none

/-- `GoalPriority` from `main_loop/goal_tree.py`. -/
inductive GoalPriority where
  | low | medium | high | critical
deriving DecidableEq, Repr

/-- The numeric tag of a priority (`GoalPriority.value` in Python). -/
def GoalPriority.value : GoalPriority → Nat
  | .low => 1
  | .medium => 2
  | .high => 3
  | .critical => 4

/-- Decode a priority tag (`GoalPriority(data["priority"])`). -/
def GoalPriority.ofValue : Nat → Option GoalPriority
  | 1 => some .low
  | 2 => some .medium
  | 3 => some .high
  | 4 => some .critical
  | _ => none

/-- `AcceptanceCriteria` dataclass. -/
structure AcceptanceCriteria where
  description : String
  test_function : Option String := none
  validation_rules : List String := []
  success_threshold : Rat := 1
deriving DecidableEq, Repr

/-- `GoalNode` dataclass.  Timestamps are rationals (Python floats from
`time.time()`); `metadata` and `execution_results` hold opaque values. -/
structure GoalNode where
  id : String
  title : String := ""
  description : String := ""
  status : GoalStatus := .pending
  priority : GoalPriority := .medium
  parent_id : Option String := none
  children_ids : List String := []
  dependencies : List String := []
  acceptance_criteria : List AcceptanceCriteria := []
  estimated_effort : Option Rat := none
  actual_effort : Option Rat := none
  created_at : Rat := 0
  updated_at : Rat := 0
  completed_at : Option Rat := none
  tags : List String := []
  metadata : List (String × PVal) := []
  execution_results : List PVal := []
  failure_reasons : List String := []

/-- `GoalTree`: an id-indexed node map (insertion-ordered) plus root ids. -/
structure GoalTree where
  nodes : List (String × GoalNode) := []
  root_ids : List String := []
  created_at : Rat := 0
  updated_at : Rat := 0

/-- `GoalTree.update_goal_status`: raises `ValueError` for an unknown id,
otherwise unconditionally sets the status, stamps `updated_at`, and sets
`completed_at` when the new status is COMPLETED. -/
def updateGoalStatus (t : GoalTree) (goal_id : String) (status : GoalStatus)
    (now : Rat) : Except String GoalTree :=
  match alistFind goal_id t.nodes with
  | none => .error ("Goal " ++ goal_id ++ " not found")
  | some goal =>
    let goal' : GoalNode :=
      { goal with
        status := status
        updated_at := now
        completed_at := if status = GoalStatus.completed then some now else goal.completed_at }
    .ok { t with nodes := alistSet goal_id goal' t.nodes, updated_at := now }

/-- The dependency check inside `GoalTree.get_ready_goals`: every
dependency id must resolve to a COMPLETED node (`nodes.get(dep_id)`
returning `None` counts as unsatisfied). -/
def dependenciesCompleted (nodes : List (String × GoalNode)) (goal : GoalNode) : Bool :=
  goal.dependencies.all fun dep_id =>
    match alistFind dep_id nodes with
    | none => false
    | some dep_goal => dep_goal.status = GoalStatus.completed

/-- The order `ready_goals.sort(key=lambda g: g.priority.value, reverse=True)`
sorts by: highest priority first. -/
def priorityGE (a b : GoalNode) : Prop := b.priority.value ≤ a.priority.value

instance : DecidableRel priorityGE := fun a b =>
  inferInstanceAs (Decidable (b.priority.value ≤ a.priority.value))

instance : IsTotal GoalNode priorityGE :=
  ⟨fun a b => le_total b.priority.value a.priority.value⟩

instance : IsTrans GoalNode priorityGE :=
  ⟨fun _ _ _ h h' => le_trans h' h⟩

/-- `GoalTree.get_ready_goals`: the PENDING goals whose dependencies are
all COMPLETED, in node-insertion order, then stably sorted by priority
descending (Python `list.sort` is stable; `List.insertionSort` is the
stable sort with the same specification). -/
def getReadyGoals (t : GoalTree) : List GoalNode :=
  let ready_goals := (t.nodes.map Prod.snd).filter fun goal =>
    goal.status = GoalStatus.pending && dependenciesCompleted t.nodes goal
  List.insertionSort priorityGE ready_goals

/-- The typed shape of `AcceptanceCriteria.to_dict`-style entries inside a
serialized node (`GoalNode.to_dict` emits every field). -/
structure ACRecord where
  description : String
  test_function : Option String
  validation_rules : List String
  success_threshold : Rat

/-- The typed shape of `GoalNode.to_dict`: statuses and priorities are
stored as their enum tags. -/
structure NodeRecord where
  id : String
  title : String
  description : String
  status : String
  priority : Nat
  parent_id : Option String
  children_ids : List String
  dependencies : List String
  acceptance_criteria : List ACRecord
  estimated_effort : Option Rat
  actual_effort : Option Rat
  created_at : Rat
  updated_at : Rat
  completed_at : Option Rat
  tags : List String
  metadata : List (String × PVal)
  execution_results : List PVal
  failure_reasons : List String

/-- `GoalNode.to_dict`. -/
def GoalNode.toDict (n : GoalNode) : NodeRecord :=
  { id := n.id
    title := n.title
    description := n.description
    status := n.status.value
    priority := n.priority.value
    parent_id := n.parent_id
    children_ids := n.children_ids
    dependencies := n.dependencies
    acceptance_criteria := n.acceptance_criteria.map fun ac =>
      { description := ac.description
        test_function := ac.test_function
        validation_rules := ac.validation_rules
        success_threshold := ac.success_threshold }
    estimated_effort := n.estimated_effort
    actual_effort := n.actual_effort
    created_at := n.created_at
    updated_at := n.updated_at
    completed_at := n.completed_at
    tags := n.tags
    metadata := n.metadata
    execution_results := n.execution_results
    failure_reasons := n.failure_reasons }

/-- `GoalNode.from_dict`: decodes the enum tags (an invalid tag raises,
modelled by `none`) and rebuilds the acceptance criteria. -/
def GoalNode.fromDict (d : NodeRecord) : Option GoalNode := do
  let status ← GoalStatus.ofValue d.status
  let priority ← GoalPriority.ofValue d.priority
  some
    { id := d.id
      title := d.title
      description := d.description
      status := status
      priority := priority
      parent_id := d.parent_id
      children_ids := d.children_ids
      dependencies := d.dependencies
      acceptance_criteria := d.acceptance_criteria.map fun ac =>
        { description := ac.description
          test_function := ac.test_function
          validation_rules := ac.validation_rules
          success_threshold := ac.success_threshold }
      estimated_effort := d.estimated_effort
      actual_effort := d.actual_effort
      created_at := d.created_at
      updated_at := d.updated_at
      completed_at := d.completed_at
      tags := d.tags
      metadata := d.metadata
      execution_results := d.execution_results
      failure_reasons := d.failure_reasons }

/-- The typed shape of `GoalTree.to_dict`. -/
structure TreeRecord where
  nodes : List (String × NodeRecord)
  root_ids : List String
  created_at : Rat
  updated_at : Rat

/-- `GoalTree.to_dict`: serializes every node keyed by id, in the node
map's insertion order. -/
def GoalTree.toDict (t : GoalTree) : TreeRecord :=
  { nodes := t.nodes.map fun p => (p.1, p.2.toDict)
    root_ids := t.root_ids
    created_at := t.created_at
    updated_at := t.updated_at }

/-- `GoalTree.from_dict`: rebuilds the node map by inserting each decoded
node in iteration order (`tree.nodes[node_id] = node`). -/
def GoalTree.fromDict (d : TreeRecord) : Option GoalTree := do
  let pairs ← d.nodes.mapM fun p => do
    let node ← GoalNode.fromDict p.2
    some (p.1, node)
  some
    { nodes := pairs.foldl (fun acc p => alistSet p.1 p.2 acc) []
      root_ids := d.root_ids
      created_at := d.created_at
      updated_at := d.updated_at }

end GoalTreePy

namespace ResourceBoundsPy

/-- `EscalationReason` from `main_loop/resource_bounds.py`. -/
inductive EscalationReason where
  | max_iterations_reached
  | no_progress
  | cost_limit_exceeded
  | time_limit_exceeded
  | token_limit_exceeded
  | safety_violation
  | user_requested
deriving DecidableEq, Repr

/-- `ResourceUsage`: running totals plus the two wall-clock anchors. -/
structure ResourceUsage where
  iterations : Nat := 0
  depth : Nat := 0
  cost : Rat := 0
  tokens : Nat := 0
  start_time : Rat := 0
  last_progress_time : Rat := 0

/-- `ResourceUsage.elapsed_time()` with `time.time()` passed explicitly. -/
def ResourceUsage.elapsedTime (u : ResourceUsage) (now : Rat) : Rat :=
  now - u.start_time

/-- `ResourceUsage.time_since_progress()`. -/
def ResourceUsage.timeSinceProgress (u : ResourceUsage) (now : Rat) : Rat :=
  now - u.last_progress_time

/-- The `escalation_rules` dict: the three keys the code reads, each via
`.get` with a default. -/
structure EscalationRules where
  cost_spike_threshold : Option Rat := none
  time_spike_threshold : Option Rat := none
  auto_halt_conditions : List String := []

/-- `ResourceBounds` (the fields the verified operations read). -/
structure ResourceBounds where
  max_iterations : Option Nat := none
  max_depth : Option Nat := none
  cost_limit : Option Rat := none
  time_limit : Option Rat := none
  token_limit : Option Nat := none
  retry_limit : Nat := 3
  retry_backoff : Rat := 1
  no_progress_timeout : Rat := 300
  approval_timeout : Rat := 300
  tool_permissions : List String := []
  escalation_rules : EscalationRules := {}

/-- Detail payloads the code attaches to escalations (the dict literals
passed to `escalate`). -/
inductive EscDetails where
  | noDetails
  | lowConfidence (confidence : Rat)
  | safetyViolationDetected
  | costSpike (ratio : Rat)
  | timeSpike (ratio : Rat)
deriving DecidableEq, Repr

/-- The usage snapshot stored inside each escalation record. -/
structure UsageSnapshot where
  iterations : Nat
  depth : Nat
  cost : Rat
  tokens : Nat
  elapsed_time : Rat

/-- One appended escalation record. -/
structure Escalation where
  reason : EscalationReason
  timestamp : Rat
  usage : UsageSnapshot
  details : EscDetails

/-- `ResourceManager` state: immutable bounds plus mutable usage,
escalation log and approval queue. -/
structure ResourceManager where
  bounds : ResourceBounds
  usage : ResourceUsage := {}
  escalations : List Escalation := []

/-- The `state` dict passed to `check_stop_conditions`: the two keys the
code reads, each via `.get` with a default. -/
structure CurrentState where
  confidence : Option Rat := none
  safety_violation : Bool := false

/-- `ResourceManager.escalate`: appends one immutable record with the
current usage snapshot. -/
def escalate (rm : ResourceManager) (now : Rat) (reason : EscalationReason)
    (details : EscDetails) : ResourceManager :=
  { rm with
    escalations := rm.escalations ++
      [{ reason := reason
         timestamp := now
         usage :=
          { iterations := rm.usage.iterations
            depth := rm.usage.depth
            cost := rm.usage.cost
            tokens := rm.usage.tokens
            elapsed_time := rm.usage.elapsedTime now }
         details := details }] }

/-- The loop body of `ResourceManager._check_custom_stop_conditions`,
walking `auto_halt_conditions` in order. -/
def checkCustomStopConditions (rm : ResourceManager) (current_state : CurrentState)
    (now : Rat) : List String → Bool × ResourceManager
  | [] => (false, rm)
  | condition :: rest =>
    if condition = "low_confidence" then
      let confidence := current_state.confidence.getD 1
      if confidence < 1/2 then
        (true, escalate rm now .safety_violation (.lowConfidence confidence))
      else
        checkCustomStopConditions rm current_state now rest
    else if condition = "safety_violation" then
      if current_state.safety_violation then
        (true, escalate rm now .safety_violation .safetyViolationDetected)
      else
        checkCustomStopConditions rm current_state now rest
    else
      checkCustomStopConditions rm current_state now rest

/-- `ResourceManager.check_stop_conditions`: each ceiling compares with
`>=` and returns at the first breach after recording one escalation. -/
def checkStopConditions (rm : ResourceManager) (current_state : CurrentState)
    (now : Rat) : Bool × ResourceManager :=
  if (match rm.bounds.max_iterations with
      | some m => decide (rm.usage.iterations ≥ m)
      | none => false) then
    (true, escalate rm now .max_iterations_reached .noDetails)
  else if (match rm.bounds.cost_limit with
      | some c => decide (rm.usage.cost ≥ c)
      | none => false) then
    (true, escalate rm now .cost_limit_exceeded .noDetails)
  else if (match rm.bounds.time_limit with
      | some tl => decide (rm.usage.elapsedTime now ≥ tl)
      | none => false) then
    (true, escalate rm now .time_limit_exceeded .noDetails)
  else if (match rm.bounds.token_limit with
      | some tk => decide (rm.usage.tokens ≥ tk)
      | none => false) then
    (true, escalate rm now .token_limit_exceeded .noDetails)
  else if rm.usage.timeSinceProgress now ≥ rm.bounds.no_progress_timeout then
    (true, escalate rm now .no_progress .noDetails)
  else
    let custom := checkCustomStopConditions rm current_state now
      rm.bounds.escalation_rules.auto_halt_conditions
    if custom.1 then (true, custom.2) else (false, rm)

/-- The `current_usage` dict handed to `manage_resource_bounds`: each key
the code reads via `.get`. -/
structure UsageDelta where
  iterations : Option Nat := none
  depth : Option Nat := none
  cost : Option Rat := none
  tokens : Option Nat := none
  expected_cost : Option Rat := none
  expected_time : Option Rat := none

/-- `ResourceManager._check_resource_spikes`: a spike escalates only when
the actual/expected ratio is strictly greater than the threshold
(defaults 2.0 for cost, 1.5 for time). -/
def checkResourceSpikes (rm : ResourceManager) (current_usage : UsageDelta)
    (now : Rat) : ResourceManager :=
  let expected_cost := current_usage.expected_cost.getD 0
  let rm1 :=
    if expected_cost > 0 then
      let cost_ratio := rm.usage.cost / expected_cost
      let threshold := rm.bounds.escalation_rules.cost_spike_threshold.getD 2
      if cost_ratio > threshold then
        escalate rm now .cost_limit_exceeded (.costSpike cost_ratio)
      else rm
    else rm
  let expected_time := current_usage.expected_time.getD 0
  if expected_time > 0 then
    let time_ratio := rm1.usage.elapsedTime now / expected_time
    let threshold := rm1.bounds.escalation_rules.time_spike_threshold.getD (3/2)
    if time_ratio > threshold then
      escalate rm1 now .time_limit_exceeded (.timeSpike time_ratio)
    else rm1
  else rm1

/-- `ResourceManager.manage_resource_bounds`: merge the supplied usage
into the running totals (each field defaulting to its current value),
then check for spikes.  It returns nothing to the caller (never a stop
signal). -/
def manageResourceBounds (rm : ResourceManager) (current_usage : UsageDelta)
    (now : Rat) : ResourceManager :=
  let usage' :=
    { rm.usage with
      iterations := current_usage.iterations.getD rm.usage.iterations
      depth := current_usage.depth.getD rm.usage.depth
      cost := current_usage.cost.getD rm.usage.cost
      tokens := current_usage.tokens.getD rm.usage.tokens }
  checkResourceSpikes { rm with usage := usage' } current_usage now

/-- `ResourceManager.has_tool_permission`: an empty permission list means
no restriction. -/
def hasToolPermission (rm : ResourceManager) (tool_name : String) : Bool :=
  if rm.bounds.tool_permissions.isEmpty then true
  else rm.bounds.tool_permissions.contains tool_name

/-- `UserCheckpoint` configuration. -/
structure UserCheckpoint where
  id : String := ""
  event : String := ""
  mode : String := "continue"
  condition : Option String := none
  timeout : Option Nat := none
  description : String := ""
  enabled : Bool := true

/-- `UserCheckpoint.should_trigger`.  Python's `eval` of the condition
string is external: it is passed in as `evalExpr`, returning the
expression's truth value or the raised exception.  A falsy condition
(`None` or the empty string) means "no condition". -/
def shouldTrigger (cp : UserCheckpoint)
    (evalExpr : String → List (String × PVal) → Except String Bool)
    (context : List (String × PVal)) : Bool :=
  if !cp.enabled then false
  else
    match cp.condition with
    | none => true
    | some c =>
      if c = "" then true
      else
        match evalExpr c context with
        | .ok b => b
        | .error _ => false

end ResourceBoundsPy

namespace MainPy

/-- `ResultStatus` from `main.py`. -/
inductive ResultStatus where
  | SUCCESS | FAILURE | STOP_AND_WAIT | NEEDS_CLARIFICATION
deriving DecidableEq, Repr

/-- The string tag of a `ResultStatus` (its `.value`). -/
def ResultStatus.value : ResultStatus → String
  | .SUCCESS => "SUCCESS"
  | .FAILURE => "FAILURE"
  | .STOP_AND_WAIT => "STOP_AND_WAIT"
  | .NEEDS_CLARIFICATION => "NEEDS_CLARIFICATION"

/-- Decode a tag (`ResultStatus(value)`). -/
def ResultStatus.ofValue : String → Option ResultStatus
  | "SUCCESS" => some .SUCCESS
  | "FAILURE" => some .FAILURE
  | "STOP_AND_WAIT" => some .STOP_AND_WAIT
  | "NEEDS_CLARIFICATION" => some .NEEDS_CLARIFICATION
  | _ => none

/-- The `Result` dataclass. -/
structure Result where
  status : ResultStatus
  data : Option PVal := none
  error : Option String := none
  meta : Option PVal := none

/-- `Result.success()`. -/
def Result.successR (data : Option PVal := none) (meta : Option PVal := none) : Result :=
  { status := .SUCCESS, data := data, meta := meta }

/-- `Result.failure(error)`. -/
def Result.failureR (error : String) (meta : Option PVal := none) : Result :=
  { status := .FAILURE, error := some error, meta := meta }

/-- `GoalNode` from `main.py` (the engine's lightweight goal record; its
`subgoals` field nests recursively). -/
inductive GoalNode where
  | mk
    (objective : String)
    (dependencies : List String)
    (acceptance_criteria : List String)
    (status : String)
    (priority : Int)
    (subgoals : List GoalNode)
    (meta : List (String × PVal))

/-- The dynamic argument of `MainSolvingLoop.normalize_result`: a `Result`
object, a raw string, a `ResultStatus` enum member, or anything else. -/
inductive RawResult where
  | res (r : Result)
  | str (s : String)
  | resStatus (st : ResultStatus)
  | otherV (v : PVal)

/-- `MainSolvingLoop.normalize_result`: `Result` objects pass through,
legacy constants wrap into a `Result`, everything else becomes
`FAILURE("unknown_result_type")`. -/
def normalizeResult (value : RawResult) : Result :=
  match value with
  | .res r => r
  | .str s =>
    match ResultStatus.ofValue s with
    | some st => { status := st }
    | none =>
      { status := .FAILURE, error := some "unknown_result_type"
        meta := some (.pdict [("raw", .pstr s)]) }
  | .resStatus st => { status := st }
  | .otherV v =>
    { status := .FAILURE, error := some "unknown_result_type"
      meta := some (.pdict [("raw", v)]) }

/-- The decomposition branch of `MainSolvingLoop.execute_goal_loop`
(lines 429-438): each subgoal runs sequentially at `depth + 1` through the
recursive call, modelled by `exec`; a normalized FAILURE, STOP_AND_WAIT or
NEEDS_CLARIFICATION subgoal result returns immediately, and an exhausted
loop returns `Result.success()`. -/
def executeSubgoalsLoop (exec : GoalNode → Nat → Result) (subgoals : List GoalNode)
    (depth : Nat) : Result :=
  match subgoals with
  | [] => Result.successR
  | subgoal :: rest =>
    let sub_result := normalizeResult (.res (exec subgoal (depth + 1)))
    if sub_result.status = .FAILURE then sub_result
    else if sub_result.status = .STOP_AND_WAIT ∨ sub_result.status = .NEEDS_CLARIFICATION then
      sub_result
    else executeSubgoalsLoop exec rest depth

/-- The subgoals the decomposition loop actually executes: the loop body
runs once per subgoal until the first early return. -/
def executedSubgoals (exec : GoalNode → Nat → Result) (subgoals : List GoalNode)
    (depth : Nat) : List GoalNode :=
  match subgoals with
  | [] => []
  | subgoal :: rest =>
    let sub_result := normalizeResult (.res (exec subgoal (depth + 1)))
    if sub_result.status = .FAILURE then [subgoal]
    else if sub_result.status = .STOP_AND_WAIT ∨ sub_result.status = .NEEDS_CLARIFICATION then
      [subgoal]
    else subgoal :: executedSubgoals exec rest depth

/-- The dict returned by `execute_plan` as read by `is_transient_failure`
(`.get("status")`, `.get("error", "")`). -/
structure ExecResult where
  status : Option String := none
  error : Option String := none
deriving DecidableEq, Repr

/-- Python's `str.lower()`, character by character. -/
def strToLower (s : String) : String :=
  String.mk (s.toList.map Char.toLower)

/-- Substring containment, the semantics of Python's `te in error`:
`pat` is a prefix of some suffix of `s`. -/
def strContainsSub (s pat : String) : Bool :=
  s.toList.tails.any fun suffix => pat.toList.isPrefixOf suffix

/-- `MainSolvingLoop.is_transient_failure`. -/
def isTransientFailure (execution_result : ExecResult) : Bool :=
  if execution_result.status ≠ some "FAILURE" then false
  else
    let error := strToLower (execution_result.error.getD "")
    ["rate_limited", "timeout", "network_error", "temporary"].any fun te =>
      strContainsSub error te

/-- The delay computed by `MainSolvingLoop.backoff`:
`backoff_factor * (2 ** retry_attempts)`. -/
def backoffDelay (retry_attempts : Nat) (backoff_factor : Rat) : Rat :=
  backoff_factor * 2 ^ retry_attempts

/-- The retry `while` loop of `execute_goal_loop` (lines 461-464), after
the initial `execute_plan` call.  `execute_plan` is the backend call,
modelled as a function of the call index; the trace returned is (final
result, number of re-executions, backoff delays slept in order). -/
def executePlanRetryAux (execute_plan : Nat → ExecResult) (retry_limit : Nat)
    (retry_backoff : Rat) (retry_attempts : Nat) (execution_result : ExecResult) :
    ExecResult × Nat × List Rat :=
  if h : isTransientFailure execution_result = true ∧ retry_attempts < retry_limit then
    let delay := backoffDelay retry_attempts retry_backoff
    let next := execute_plan (retry_attempts + 1)
    let out := executePlanRetryAux execute_plan retry_limit retry_backoff
      (retry_attempts + 1) next
    (out.1, out.2.1 + 1, delay :: out.2.2)
  else (execution_result, 0, [])
termination_by retry_limit - retry_attempts
decreasing_by omega

/-- The whole execute-with-retry step: one initial `execute_plan` call
(index 0) followed by the retry loop.  Returns (final result, total
`execute_plan` invocations, backoff delays in order). -/
def executeWithRetry (execute_plan : Nat → ExecResult) (retry_limit : Nat)
    (retry_backoff : Rat) : ExecResult × Nat × List Rat :=
  let execution_result := execute_plan 0
  let out := executePlanRetryAux execute_plan retry_limit retry_backoff 0 execution_result
  (out.1, out.2.1 + 1, out.2.2)

end MainPy

namespace MainSolverPy

/-- The four legacy result constants (`[s.value for s in ResultStatus]`). -/
def legacyConstants : List String :=
  ["SUCCESS", "FAILURE", "STOP_AND_WAIT", "NEEDS_CLARIFICATION"]

/-- Python's `str.upper()`, character by character. -/
def strToUpper (s : String) : String :=
  String.mk (s.toList.map Char.toUpper)

/-- The `FAILURE("unknown_result_type")` dict built by the fall-through
branch of `main_solver.normalize_result`. -/
def unknownResultDict (value : PVal) : PVal :=
  .pdict [("status", .pstr "FAILURE"), ("error", .pstr "unknown_result_type"),
    ("meta", .pdict [("raw", value)])]

/-- `main_solver.normalize_result`: a dict with a `"status"` key passes
through; the four legacy constants (exactly, or case-insensitively for
strings) wrap into `{"status": tag}`; anything else becomes the
`unknown_result_type` FAILURE dict. -/
def normalizeResult (value : PVal) : PVal :=
  match value with
  | .pdict entries =>
    if alistHas "status" entries then .pdict entries
    else unknownResultDict (.pdict entries)
  | .pstr s =>
    if legacyConstants.contains s then .pdict [("status", .pstr s)]
    else if legacyConstants.contains (strToUpper s) then
      .pdict [("status", .pstr (strToUpper s))]
    else unknownResultDict (.pstr s)
  | v => unknownResultDict v

/-- The check `isinstance(value, dict) and "status" in value`: the value
already has the shape of a normalized Result. -/
def isResultShaped (value : PVal) : Bool :=
  match value with
  | .pdict entries => alistHas "status" entries
  | _ => false

/-- The status stored in a Result-shaped dict, if any. -/
def statusOf (value : PVal) : Option PVal :=
  match value with
  | .pdict entries => alistFind "status" entries
  | _ => none

end MainSolverPy

/-! Concrete inputs used to evaluate the claims on small instances. -/

/-- A goal tree holding one COMPLETED goal, id "a". -/
def treeDone : GoalTreePy.GoalTree :=
  { nodes := [("a", { id := "a", title := "A", status := .completed })] }

/-- A checkpoint that is enabled and carries a (malformed) condition. -/
def cpCond : ResourceBoundsPy.UserCheckpoint :=
  { event := "goal_selected", mode := "require_approval", condition := some "x >" }

/-- An expression evaluator that always raises, as `eval` does on a
malformed condition string. -/
def evalRaises : String → List (String × PVal) → Except String Bool :=
  fun _ _ => .error "SyntaxError"

/-- A backend whose every `execute_plan` call fails with a timeout, a
transient error category. -/
def alwaysTimeout : Nat → MainPy.ExecResult :=
  fun _ => { status := some "FAILURE", error := some "timeout" }

/-- Three concrete subgoals for the decomposition scenario. -/
def gA : MainPy.GoalNode := .mk "subgoal A" [] [] "pending" 0 [] []

/-- Second subgoal: the one made to fail. -/
def gB : MainPy.GoalNode := .mk "subgoal B" [] [] "pending" 0 [] []

/-- Third subgoal: must never run. -/
def gC : MainPy.GoalNode := .mk "subgoal C" [] [] "pending" 0 [] []

/-- A recursive executor under which exactly "subgoal B" fails. -/
def execW : MainPy.GoalNode → Nat → MainPy.Result :=
  fun g _ =>
    match g with
    | .mk o _ _ _ _ _ _ =>
      if o = "subgoal B" then MainPy.Result.failureR "boom" else MainPy.Result.successR

namespace ResourceBoundsPy

/-- The usage snapshot `escalate` stores. -/
def usageSnapshot (u : ResourceUsage) (now : Rat) : UsageSnapshot :=
  { iterations := u.iterations
    depth := u.depth
    cost := u.cost
    tokens := u.tokens
    elapsed_time := u.elapsedTime now }

/-- The escalation record appended by one `escalate` call. -/
def mkEscalation (rm : ResourceManager) (now : Rat) (reason : EscalationReason)
    (details : EscDetails) : Escalation :=
  { reason := reason, timestamp := now, usage := usageSnapshot rm.usage now, details := details }

/-- The running totals after `manage_resource_bounds` merges a usage
delta: each supplied field replaces the total, each absent field keeps
its current value. -/
def mergedUsage (u : ResourceUsage) (cu : UsageDelta) : ResourceUsage :=
  { u with
    iterations := cu.iterations.getD u.iterations
    depth := cu.depth.getD u.depth
    cost := cu.cost.getD u.cost
    tokens := cu.tokens.getD u.tokens }

/-- The spike escalations `_check_resource_spikes` appends, described
independently of the code: a cost (resp. time) spike record appears
exactly when a positive expected value is supplied and the actual/expected
ratio STRICTLY exceeds the threshold (defaults 2.0 and 1.5). -/
def spikeEscalations (b : ResourceBounds) (u : ResourceUsage) (cu : UsageDelta)
    (now : Rat) : List Escalation :=
  (if cu.expected_cost.getD 0 > 0 ∧
      u.cost / cu.expected_cost.getD 0 > b.escalation_rules.cost_spike_threshold.getD 2 then
    [{ reason := .cost_limit_exceeded, timestamp := now, usage := usageSnapshot u now
       details := .costSpike (u.cost / cu.expected_cost.getD 0) }]
  else []) ++
  (if cu.expected_time.getD 0 > 0 ∧
      u.elapsedTime now / cu.expected_time.getD 0 >
        b.escalation_rules.time_spike_threshold.getD (3/2) then
    [{ reason := .time_limit_exceeded, timestamp := now, usage := usageSnapshot u now
       details := .timeSpike (u.elapsedTime now / cu.expected_time.getD 0) }]
  else [])

/-- The iteration ceiling is breached: a ceiling is configured and the
iteration count has reached it (`>=`). -/
def iterationCeilingHit (rm : ResourceManager) : Bool :=
  match rm.bounds.max_iterations with
  | some m => decide (rm.usage.iterations ≥ m)
  | none => false

/-- The cost ceiling is breached (`>=`). -/
def costCeilingHit (rm : ResourceManager) : Bool :=
  match rm.bounds.cost_limit with
  | some c => decide (rm.usage.cost ≥ c)
  | none => false

/-- The time ceiling is breached (`>=`). -/
def timeCeilingHit (rm : ResourceManager) (now : Rat) : Bool :=
  match rm.bounds.time_limit with
  | some tl => decide (rm.usage.elapsedTime now ≥ tl)
  | none => false

/-- The token ceiling is breached (`>=`). -/
def tokenCeilingHit (rm : ResourceManager) : Bool :=
  match rm.bounds.token_limit with
  | some tk => decide (rm.usage.tokens ≥ tk)
  | none => false

/-- The no-progress timeout is breached (`>=`; always configured). -/
def noProgressHit (rm : ResourceManager) (now : Rat) : Bool :=
  decide (rm.usage.timeSinceProgress now ≥ rm.bounds.no_progress_timeout)

/-- The first custom stop condition (in `auto_halt_conditions` order)
that fires on the given state, with the detail payload it records:
confidence below 0.5 for "low_confidence", the explicit flag for
"safety_violation"; unknown tags never fire. -/
def firstCustomBreach : List String → CurrentState → Option EscDetails
  | [], _ => none
  | condition :: rest, st =>
    if condition = "low_confidence" then
      if st.confidence.getD 1 < 1/2 then some (.lowConfidence (st.confidence.getD 1))
      else firstCustomBreach rest st
    else if condition = "safety_violation" then
      if st.safety_violation then some .safetyViolationDetected
      else firstCustomBreach rest st
    else firstCustomBreach rest st

end ResourceBoundsPy

/-- A manager with default bounds and zero usage. -/
def rmSpike : ResourceBoundsPy.ResourceManager := { bounds := {} }

/-- A usage delta reporting cost 2 against an expected cost of 1: the
cost ratio equals the default spike threshold 2.0 exactly. -/
def deltaSpike : ResourceBoundsPy.UsageDelta := { cost := some 2, expected_cost := some 1 }

/-- Goal "a", already COMPLETED, for the readiness scenario. -/
def nodeDepA : GoalTreePy.GoalNode := { id := "a", status := .completed }

/-- Goal "b", PENDING and depending on "a". -/
def nodeDepB : GoalTreePy.GoalNode := { id := "b", dependencies := ["a"] }

/-- The two-goal tree of the readiness scenario. -/
def treeAB : GoalTreePy.GoalTree := { nodes := [("a", nodeDepA), ("b", nodeDepB)] }

-- Claim theorems follow.

/-- Setting a key always makes it the first-found binding. -/
theorem alistFind_alistSet {α : Type} (k : String) (v : α) (l : List (String × α)) :
    alistFind k (alistSet k v l) = some v := by
  induction l with
  | nil => simp [alistSet, alistFind]
  | cons p rest ih =>
    by_cases h : p.1 = k
    · simp [alistSet, h, alistFind]
    · simp [alistSet, h, alistFind, ih]

/-- Claim C9: with an empty `tool_permissions` list every tool is
permitted; with a non-empty list exactly the members are permitted. -/
theorem hasToolPermission_empty_or_member (rm : ResourceBoundsPy.ResourceManager)
    (tool_name : String) :
    ResourceBoundsPy.hasToolPermission rm tool_name = true ↔
      (rm.bounds.tool_permissions = [] ∨ tool_name ∈ rm.bounds.tool_permissions) := by
  unfold ResourceBoundsPy.hasToolPermission
  cases h : rm.bounds.tool_permissions with
  | nil => simp
  | cons a l => simp

/-- Claim C10: `should_trigger` is false for a disabled checkpoint and
false whenever evaluating the (non-empty) condition expression raises;
an enabled checkpoint with no condition always triggers. -/
theorem shouldTrigger_spec (cp : ResourceBoundsPy.UserCheckpoint)
    (evalExpr : String → List (String × PVal) → Except String Bool)
    (context : List (String × PVal)) :
    (cp.enabled = false → ResourceBoundsPy.shouldTrigger cp evalExpr context = false) ∧
    (∀ c e, cp.condition = some c → c ≠ "" → evalExpr c context = .error e →
      ResourceBoundsPy.shouldTrigger cp evalExpr context = false) ∧
    (cp.enabled = true → cp.condition = none →
      ResourceBoundsPy.shouldTrigger cp evalExpr context = true) := by
  refine ⟨fun hdis => ?_, fun c e hc hne herr => ?_, fun hen hnone => ?_⟩
  · simp [ResourceBoundsPy.shouldTrigger, hdis]
  · by_cases hen : cp.enabled
    · simp [ResourceBoundsPy.shouldTrigger, hen, hc, hne, herr]
    · simp [ResourceBoundsPy.shouldTrigger, Bool.eq_false_iff.mpr hen]
  · simp [ResourceBoundsPy.shouldTrigger, hen, hnone]

/-- Claim C10 witness: the enabled checkpoint with a malformed condition
never triggers under a raising evaluator. -/
theorem shouldTrigger_spec_witness :
    ResourceBoundsPy.shouldTrigger cpCond evalRaises [] = false := by
  have h := shouldTrigger_spec cpCond evalRaises []
  exact h.2.1 "x >" "SyntaxError" rfl (by decide) rfl

/-- Claim C1 counterexample: on a tree whose goal "a" is COMPLETED
(terminal), `update_goal_status("a", PENDING)` succeeds and the goal
re-enters PENDING, contradicting the claimed rejection of transitions
out of a terminal status. -/
theorem updateGoalStatus_terminal_counterexample :
    (GoalTreePy.updateGoalStatus treeDone "a" .pending 5).isOk = true ∧
    ((GoalTreePy.updateGoalStatus treeDone "a" .pending 5).toOption.bind
      fun t => (alistFind "a" t.nodes).map GoalTreePy.GoalNode.status) =
      some GoalTreePy.GoalStatus.pending := by
  exact ⟨rfl, rfl⟩

/-- Claim C1 amended: `update_goal_status` fails only for an unknown id;
for any id present it succeeds regardless of the current status (terminal
included), setting the requested status and setting `completed_at`
exactly when the new status is COMPLETED. -/
theorem updateGoalStatus_spec (t : GoalTreePy.GoalTree) (gid : String)
    (st : GoalTreePy.GoalStatus) (now : Rat) :
    (∀ g, alistFind gid t.nodes = some g →
      ∃ t', GoalTreePy.updateGoalStatus t gid st now = .ok t' ∧
        ((alistFind gid t'.nodes).map GoalTreePy.GoalNode.status = some st ∧
         (alistFind gid t'.nodes).bind GoalTreePy.GoalNode.completed_at =
           (if st = .completed then some now else g.completed_at))) ∧
    (alistFind gid t.nodes = none →
      GoalTreePy.updateGoalStatus t gid st now = .error ("Goal " ++ gid ++ " not found")) := by
  constructor
  · intro g hg
    simp only [GoalTreePy.updateGoalStatus, hg]
    refine ⟨_, rfl, ?_, ?_⟩ <;> simp [alistFind_alistSet]
  · intro hn
    simp [GoalTreePy.updateGoalStatus, hn]

/-- Claim C1 amended witness: updating the COMPLETED goal "a" to
IN_PROGRESS succeeds and is observable. -/
theorem updateGoalStatus_spec_witness :
    ((GoalTreePy.updateGoalStatus treeDone "a" .in_progress 7).toOption.bind
      fun t => (alistFind "a" t.nodes).map GoalTreePy.GoalNode.status) =
      some GoalTreePy.GoalStatus.in_progress := by
  obtain ⟨t', h1, h2, _⟩ :=
    (updateGoalStatus_spec treeDone "a" .in_progress 7).1
      { id := "a", title := "A", status := .completed } rfl
  rw [h1]
  exact h2

/-- Claim C4: when every execution result is transient, with
`retry_limit = 3` and backoff factor `b` the plan is executed exactly 4
times (calls 0..3) with backoff delays `b, 2b, 4b` before the retries,
and the loop then stops. -/
theorem executePlanRetryAux_all_transient (n : Nat) :
    ∀ (execute_plan : Nat → MainPy.ExecResult) (b : Rat) (limit attempts : Nat),
      n = limit - attempts → attempts ≤ limit →
      (∀ i, MainPy.isTransientFailure (execute_plan i) = true) →
      MainPy.executePlanRetryAux execute_plan limit b attempts (execute_plan attempts) =
        (execute_plan limit, n,
          (List.range n).map fun j => MainPy.backoffDelay (attempts + j) b) := by
  induction n with
  | zero =>
    intro ep b limit attempts hn hle h
    have : attempts = limit := by omega
    subst this
    rw [MainPy.executePlanRetryAux.eq_def, dif_neg (by omega)]
    simp
  | succ k ih =>
    intro ep b limit attempts hn hle h
    have hlt : attempts < limit := by omega
    rw [MainPy.executePlanRetryAux.eq_def, dif_pos ⟨h attempts, hlt⟩]
    simp only [ih ep b limit (attempts + 1) (by omega) (by omega) h]
    rw [List.range_succ_eq_map, List.map_cons, List.map_map]
    simp only [Prod.mk.injEq, true_and, Nat.add_zero, List.cons.injEq]
    refine List.map_congr_left fun j hj => ?_
    simp only [Function.comp_apply, MainPy.backoffDelay, Nat.succ_eq_add_one]
    have hexp : attempts + 1 + j = attempts + (j + 1) := by omega
    rw [hexp]

/-- Claim C4: when every execution result is transient, with
`retry_limit = 3` and backoff factor `b` the plan is executed exactly 4
times (calls 0..3) with backoff delays `b, 2b, 4b` before the retries,
and the loop then stops. -/
theorem executeWithRetry_transient_bound (execute_plan : Nat → MainPy.ExecResult)
    (b : Rat) (h : ∀ i, MainPy.isTransientFailure (execute_plan i) = true) :
    MainPy.executeWithRetry execute_plan 3 b =
      (execute_plan 3, 4, [b, 2 * b, 4 * b]) := by
  simp only [MainPy.executeWithRetry]
  rw [executePlanRetryAux_all_transient 3 execute_plan b 3 0 rfl (by omega) h]
  norm_num [List.range_succ, MainPy.backoffDelay]
  exact ⟨by ring, by ring⟩

/-- Claim C4 witness: a concrete always-timeout backend with `b = 5`
yields 4 executions and delays 5, 10, 20. -/
theorem executeWithRetry_transient_bound_witness :
    MainPy.executeWithRetry alwaysTimeout 3 5 =
      ({ status := some "FAILURE", error := some "timeout" }, 4, [5, 10, 20]) := by
  have ht : MainPy.isTransientFailure
      { status := some "FAILURE", error := some "timeout" } = true := by decide
  have h := executeWithRetry_transient_bound alwaysTimeout 5 (fun _ => ht)
  rw [h]
  norm_num [alwaysTimeout]

/-- If every subgoal's result is SUCCESS the decomposition loop executes
them all and returns `Result.success()`. -/
theorem executeSubgoalsLoop_all_success (exec : MainPy.GoalNode → Nat → MainPy.Result)
    (depth : Nat) :
    ∀ subgoals, (∀ g ∈ subgoals, (exec g (depth + 1)).status = .SUCCESS) →
      MainPy.executeSubgoalsLoop exec subgoals depth = MainPy.Result.successR ∧
      MainPy.executedSubgoals exec subgoals depth = subgoals := by
  intro subgoals
  induction subgoals with
  | nil => intro _; exact ⟨rfl, rfl⟩
  | cons a rest ih =>
    intro hall
    have ha : (exec a (depth + 1)).status = .SUCCESS := hall a (by simp)
    have hrest := ih fun g hg => hall g (by simp [hg])
    constructor
    · simp [MainPy.executeSubgoalsLoop, MainPy.normalizeResult, ha, hrest.1]
    · simp [MainPy.executedSubgoals, MainPy.normalizeResult, ha, hrest.2]

/-- The first non-SUCCESS subgoal result short-circuits the loop: it is
returned unmodified and nothing after it runs. -/
theorem executeSubgoalsLoop_first_nonsuccess (exec : MainPy.GoalNode → Nat → MainPy.Result)
    (depth : Nat) :
    ∀ (pre : List MainPy.GoalNode) (g : MainPy.GoalNode) (post : List MainPy.GoalNode),
      (∀ p ∈ pre, (exec p (depth + 1)).status = .SUCCESS) →
      (exec g (depth + 1)).status ≠ .SUCCESS →
      MainPy.executeSubgoalsLoop exec (pre ++ g :: post) depth = exec g (depth + 1) ∧
      MainPy.executedSubgoals exec (pre ++ g :: post) depth = pre ++ [g] := by
  intro pre
  induction pre with
  | nil =>
    intro g post _ hg
    cases hst : (exec g (depth + 1)).status with
    | SUCCESS => exact absurd hst hg
    | FAILURE =>
      constructor
      · simp [MainPy.executeSubgoalsLoop, MainPy.normalizeResult, hst]
      · simp [MainPy.executedSubgoals, MainPy.normalizeResult, hst]
    | STOP_AND_WAIT =>
      constructor
      · simp [MainPy.executeSubgoalsLoop, MainPy.normalizeResult, hst]
      · simp [MainPy.executedSubgoals, MainPy.normalizeResult, hst]
    | NEEDS_CLARIFICATION =>
      constructor
      · simp [MainPy.executeSubgoalsLoop, MainPy.normalizeResult, hst]
      · simp [MainPy.executedSubgoals, MainPy.normalizeResult, hst]
  | cons a rest ih =>
    intro g post hpre hg
    have ha : (exec a (depth + 1)).status = .SUCCESS := hpre a (by simp)
    have hr := ih g post (fun p hp => hpre p (by simp [hp])) hg
    constructor
    · simp [MainPy.executeSubgoalsLoop, MainPy.normalizeResult, ha, hr.1]
    · simp [MainPy.executedSubgoals, MainPy.normalizeResult, ha, hr.2]

/-- Claim C3: the decomposition loop runs subgoals sequentially at depth
`d + 1`; the first FAILURE/STOP_AND_WAIT/NEEDS_CLARIFICATION subgoal
result is returned immediately and unmodified and later subgoals never
execute, while all-SUCCESS subgoals make the parent return SUCCESS. -/
theorem executeSubgoalsLoop_spec (exec : MainPy.GoalNode → Nat → MainPy.Result)
    (subgoals : List MainPy.GoalNode) (depth : Nat) :
    ((∀ g ∈ subgoals, (exec g (depth + 1)).status = .SUCCESS) →
      MainPy.executeSubgoalsLoop exec subgoals depth = MainPy.Result.successR ∧
      MainPy.executedSubgoals exec subgoals depth = subgoals) ∧
    (∀ pre g post, subgoals = pre ++ g :: post →
      (∀ p ∈ pre, (exec p (depth + 1)).status = .SUCCESS) →
      (exec g (depth + 1)).status ≠ .SUCCESS →
      MainPy.executeSubgoalsLoop exec subgoals depth = exec g (depth + 1) ∧
      MainPy.executedSubgoals exec subgoals depth = pre ++ [g]) := by
  constructor
  · exact executeSubgoalsLoop_all_success exec depth subgoals
  · intro pre g post hsplit hpre hg
    subst hsplit
    exact executeSubgoalsLoop_first_nonsuccess exec depth pre g post hpre hg

/-- Claim C3 witness: three subgoals, the second failing.  The parent
result is the failing subgoal's FAILURE result and the third subgoal is
never executed. -/
theorem executeSubgoalsLoop_spec_witness :
    MainPy.executeSubgoalsLoop execW [gA, gB, gC] 0 = MainPy.Result.failureR "boom" ∧
    MainPy.executedSubgoals execW [gA, gB, gC] 0 = [gA, gB] := by
  have h := (executeSubgoalsLoop_spec execW [gA, gB, gC] 0).2 [gA] gB [gC] rfl
    (by intro p hp; simp at hp; subst hp; rfl)
    (by intro hEq; simp [execW, gB, MainPy.Result.failureR] at hEq)
  refine ⟨?_, ?_⟩
  · rw [h.1]; rfl
  · rw [h.2]; rfl

/-- Each legacy constant is already upper-case. -/
theorem legacy_strToUpper {s : String}
    (h : MainSolverPy.legacyConstants.contains s = true) :
    MainSolverPy.strToUpper s = s := by
  simp [MainSolverPy.legacyConstants] at h
  rcases h with h | h | h | h <;> subst h <;> decide

/-- Claim C6: any value that is not already Result-shaped (a dict with a
`"status"` key) is normalized deterministically: a string matching a
legacy constant (exact or case-insensitive) wraps into the matching
variant and everything else maps to `FAILURE("unknown_result_type")`;
and nothing is ever normalized to SUCCESS except a value that already
designates SUCCESS. -/
theorem normalize_result_spec (value : PVal) :
    (MainSolverPy.isResultShaped value = false →
      MainSolverPy.normalizeResult value =
        (match value with
         | .pstr s =>
           if MainSolverPy.legacyConstants.contains (MainSolverPy.strToUpper s) then
             .pdict [("status", .pstr (MainSolverPy.strToUpper s))]
           else MainSolverPy.unknownResultDict value
         | _ => MainSolverPy.unknownResultDict value)) ∧
    (MainSolverPy.statusOf (MainSolverPy.normalizeResult value) = some (.pstr "SUCCESS") →
      MainSolverPy.statusOf value = some (.pstr "SUCCESS") ∨
      ∃ s, value = .pstr s ∧ MainSolverPy.strToUpper s = "SUCCESS") := by
  constructor
  · intro hshape
    cases value with
    | pdict entries =>
      simp [MainSolverPy.isResultShaped] at hshape
      simp [MainSolverPy.normalizeResult, hshape]
    | pstr s =>
      by_cases hexact : s ∈ MainSolverPy.legacyConstants
      · have hup := legacy_strToUpper (by simpa using hexact)
        simp [MainSolverPy.normalizeResult, hexact, hup]
      · by_cases hupper : MainSolverPy.strToUpper s ∈ MainSolverPy.legacyConstants
        · simp [MainSolverPy.normalizeResult, hexact, hupper]
        · simp [MainSolverPy.normalizeResult, hexact, hupper]
    | pnull => simp [MainSolverPy.normalizeResult]
    | pbool b => simp [MainSolverPy.normalizeResult]
    | pnum q => simp [MainSolverPy.normalizeResult]
    | plist l => simp [MainSolverPy.normalizeResult]
  · intro hsucc
    cases value with
    | pdict entries =>
      by_cases hshape : alistHas "status" entries = true
      · left
        simpa [MainSolverPy.normalizeResult, MainSolverPy.statusOf, hshape] using hsucc
      · simp [MainSolverPy.normalizeResult, MainSolverPy.statusOf, hshape,
          MainSolverPy.unknownResultDict, alistFind] at hsucc
    | pstr s =>
      right
      by_cases hexact : s ∈ MainSolverPy.legacyConstants
      · have hup := legacy_strToUpper (by simpa using hexact)
        simp [MainSolverPy.normalizeResult, MainSolverPy.statusOf, hexact,
          alistFind] at hsucc
        refine ⟨s, rfl, ?_⟩
        rw [hup, hsucc]
      · by_cases hupper : MainSolverPy.strToUpper s ∈ MainSolverPy.legacyConstants
        · simp [MainSolverPy.normalizeResult, MainSolverPy.statusOf, hexact, hupper,
            alistFind] at hsucc
          exact ⟨s, rfl, hsucc⟩
        · simp [MainSolverPy.normalizeResult, MainSolverPy.statusOf, hexact, hupper,
            MainSolverPy.unknownResultDict, alistFind] at hsucc
    | pnull =>
      simp [MainSolverPy.normalizeResult, MainSolverPy.statusOf,
        MainSolverPy.unknownResultDict, alistFind] at hsucc
    | pbool b =>
      simp [MainSolverPy.normalizeResult, MainSolverPy.statusOf,
        MainSolverPy.unknownResultDict, alistFind] at hsucc
    | pnum q =>
      simp [MainSolverPy.normalizeResult, MainSolverPy.statusOf,
        MainSolverPy.unknownResultDict, alistFind] at hsucc
    | plist l =>
      simp [MainSolverPy.normalizeResult, MainSolverPy.statusOf,
        MainSolverPy.unknownResultDict, alistFind] at hsucc

/-- Claim C6 witness: the number 7 is not Result-shaped and normalizes to
the `unknown_result_type` FAILURE dict. -/
theorem normalize_result_spec_witness :
    MainSolverPy.normalizeResult (.pnum 7) = MainSolverPy.unknownResultDict (.pnum 7) :=
  (normalize_result_spec (.pnum 7)).1 rfl

/-- Claim C8 counterexample: with the default 2.0 cost-spike threshold, a
cost ratio of exactly 2 (cost 2 against expected cost 1 > 0) records NO
escalation: the comparison is strict, not `>=`. -/
theorem manageResourceBounds_ge_counterexample :
    (0 : Rat) < 1 ∧ (2 : Rat) / 1 ≥ 2 ∧
    (ResourceBoundsPy.manageResourceBounds rmSpike deltaSpike 0).escalations = [] := by
  refine ⟨by norm_num, by norm_num, ?_⟩
  unfold ResourceBoundsPy.manageResourceBounds ResourceBoundsPy.checkResourceSpikes
  norm_num [rmSpike, deltaSpike]

/-- Claim C8 amended: `manage_resource_bounds` first merges the supplied
usage into the running totals; a non-fatal spike escalation is recorded
exactly when a positive expected cost or time is supplied and the
actual-to-expected ratio STRICTLY exceeds the configured threshold
(default 2.0 for cost, 1.5 for time, compared with `>`); the bounds are
untouched and nothing signals a stop. -/
theorem manageResourceBounds_spec (rm : ResourceBoundsPy.ResourceManager)
    (cu : ResourceBoundsPy.UsageDelta) (now : Rat) :
    (ResourceBoundsPy.manageResourceBounds rm cu now).bounds = rm.bounds ∧
    (ResourceBoundsPy.manageResourceBounds rm cu now).usage =
      ResourceBoundsPy.mergedUsage rm.usage cu ∧
    (ResourceBoundsPy.manageResourceBounds rm cu now).escalations =
      rm.escalations ++
        ResourceBoundsPy.spikeEscalations rm.bounds (ResourceBoundsPy.mergedUsage rm.usage cu)
          cu now := by
  unfold ResourceBoundsPy.manageResourceBounds ResourceBoundsPy.checkResourceSpikes
    ResourceBoundsPy.spikeEscalations ResourceBoundsPy.mergedUsage
    ResourceBoundsPy.escalate ResourceBoundsPy.usageSnapshot
  split_ifs <;> simp_all [ResourceBoundsPy.ResourceUsage.elapsedTime] <;>
    split_ifs <;> simp_all <;> linarith

/-- The custom-condition loop fires exactly on the first breached custom
condition, appending its escalation. -/
theorem checkCustom_eq_firstBreach (rm : ResourceBoundsPy.ResourceManager)
    (st : ResourceBoundsPy.CurrentState) (now : Rat) :
    ∀ conds, ResourceBoundsPy.checkCustomStopConditions rm st now conds =
      (match ResourceBoundsPy.firstCustomBreach conds st with
       | some d => (true, ResourceBoundsPy.escalate rm now .safety_violation d)
       | none => (false, rm)) := by
  intro conds
  induction conds with
  | nil => rfl
  | cons c rest ih =>
    unfold ResourceBoundsPy.checkCustomStopConditions ResourceBoundsPy.firstCustomBreach
    dsimp only
    split_ifs <;> first | rfl | exact ih

/-- Claim C5: `check_stop_conditions` evaluates, in this fixed order, the
iteration, cost, time and token ceilings (each with `>=`), the
no-progress timeout, then the custom conditions; the first breach appends
exactly one escalation with the matching reason and returns true; no
breach returns false with the state untouched. -/
theorem checkStopConditions_spec (rm : ResourceBoundsPy.ResourceManager)
    (st : ResourceBoundsPy.CurrentState) (now : Rat) :
    ResourceBoundsPy.checkStopConditions rm st now =
      (if ResourceBoundsPy.iterationCeilingHit rm then
        (true, ResourceBoundsPy.escalate rm now .max_iterations_reached .noDetails)
      else if ResourceBoundsPy.costCeilingHit rm then
        (true, ResourceBoundsPy.escalate rm now .cost_limit_exceeded .noDetails)
      else if ResourceBoundsPy.timeCeilingHit rm now then
        (true, ResourceBoundsPy.escalate rm now .time_limit_exceeded .noDetails)
      else if ResourceBoundsPy.tokenCeilingHit rm then
        (true, ResourceBoundsPy.escalate rm now .token_limit_exceeded .noDetails)
      else if ResourceBoundsPy.noProgressHit rm now then
        (true, ResourceBoundsPy.escalate rm now .no_progress .noDetails)
      else
        match ResourceBoundsPy.firstCustomBreach
            rm.bounds.escalation_rules.auto_halt_conditions st with
        | some d => (true, ResourceBoundsPy.escalate rm now .safety_violation d)
        | none => (false, rm)) ∧
    (∀ reason details,
      (ResourceBoundsPy.escalate rm now reason details).escalations =
        rm.escalations ++ [ResourceBoundsPy.mkEscalation rm now reason details]) := by
  constructor
  · unfold ResourceBoundsPy.checkStopConditions ResourceBoundsPy.iterationCeilingHit
      ResourceBoundsPy.costCeilingHit ResourceBoundsPy.timeCeilingHit
      ResourceBoundsPy.tokenCeilingHit ResourceBoundsPy.noProgressHit
    rw [checkCustom_eq_firstBreach]
    rcases hfc : ResourceBoundsPy.firstCustomBreach
        rm.bounds.escalation_rules.auto_halt_conditions st with _ | d <;>
      simp [hfc]
  · intro reason details
    rfl

/-- Inserting a goal puts it in front of the equal-priority goals already
sorted past it: the filter at its own priority gains it at the head. -/
theorem filter_priority_orderedInsert_self (x : GoalTreePy.GoalNode)
    (l : List GoalTreePy.GoalNode) :
    (List.orderedInsert GoalTreePy.priorityGE x l).filter
        (fun g => decide (g.priority.value = x.priority.value)) =
      x :: l.filter (fun g => decide (g.priority.value = x.priority.value)) := by
  rw [List.orderedInsert_eq_take_drop, List.filter_append]
  have htake : (l.takeWhile fun b => decide ¬GoalTreePy.priorityGE x b).filter
      (fun g => decide (g.priority.value = x.priority.value)) = [] := by
    rw [List.filter_eq_nil_iff]
    intro a ha
    have hp := List.mem_takeWhile_imp ha
    simp only [decide_eq_true_eq, GoalTreePy.priorityGE, not_le] at hp
    simp only [decide_eq_true_eq]
    omega
  rw [htake, List.nil_append, List.filter_cons, decide_eq_true rfl]
  simp only [if_pos]
  congr 1
  conv_rhs => rw [← List.takeWhile_append_dropWhile
    (p := fun b => decide ¬GoalTreePy.priorityGE x b) (l := l)]
  rw [List.filter_append, htake, List.nil_append]

/-- Inserting a goal leaves the filter at every other priority unchanged. -/
theorem filter_priority_orderedInsert_ne (x : GoalTreePy.GoalNode)
    (l : List GoalTreePy.GoalNode) (p : Nat) (hne : x.priority.value ≠ p) :
    (List.orderedInsert GoalTreePy.priorityGE x l).filter
        (fun g => decide (g.priority.value = p)) =
      l.filter (fun g => decide (g.priority.value = p)) := by
  rw [List.orderedInsert_eq_take_drop, List.filter_append, List.filter_cons]
  rw [decide_eq_false hne]
  simp only [Bool.false_eq_true, if_neg, not_false_iff]
  conv_rhs => rw [← List.takeWhile_append_dropWhile
    (p := fun b => decide ¬GoalTreePy.priorityGE x b) (l := l)]
  rw [List.filter_append]

/-- The insertion sort used by `get_ready_goals` is stable: it preserves
the original relative order inside every priority class. -/
theorem filter_priority_insertionSort (l : List GoalTreePy.GoalNode) (p : Nat) :
    (List.insertionSort GoalTreePy.priorityGE l).filter
        (fun g => decide (g.priority.value = p)) =
      l.filter (fun g => decide (g.priority.value = p)) := by
  induction l with
  | nil => rfl
  | cons a l ih =>
    show (List.orderedInsert GoalTreePy.priorityGE a
        (List.insertionSort GoalTreePy.priorityGE l)).filter _ = _
    by_cases hp : a.priority.value = p
    · subst hp
      rw [filter_priority_orderedInsert_self, ih, List.filter_cons, decide_eq_true rfl]
      simp only [if_pos]
    · rw [filter_priority_orderedInsert_ne a _ p hp, ih, List.filter_cons,
        decide_eq_false hp]
      simp only [Bool.false_eq_true, if_neg, not_false_iff]

/-- Claim C2: `get_ready_goals` returns exactly the PENDING goals whose
every dependency id resolves to a COMPLETED goal (a permutation of that
filter over the node map), sorted by priority descending, stably (equal
priorities keep node-insertion order); no returned goal has a missing or
incomplete dependency. -/
theorem getReadyGoals_spec (t : GoalTreePy.GoalTree) :
    ((GoalTreePy.getReadyGoals t).Perm ((t.nodes.map Prod.snd).filter fun g =>
        g.status = GoalTreePy.GoalStatus.pending &&
          GoalTreePy.dependenciesCompleted t.nodes g)) ∧
    List.Sorted GoalTreePy.priorityGE (GoalTreePy.getReadyGoals t) ∧
    (∀ p : Nat,
      (GoalTreePy.getReadyGoals t).filter (fun g => decide (g.priority.value = p)) =
        ((t.nodes.map Prod.snd).filter fun g =>
          g.status = GoalTreePy.GoalStatus.pending &&
            GoalTreePy.dependenciesCompleted t.nodes g).filter
          (fun g => decide (g.priority.value = p))) ∧
    (∀ g ∈ GoalTreePy.getReadyGoals t,
      g.status = GoalTreePy.GoalStatus.pending ∧
      ∀ dep ∈ g.dependencies, ∃ d, alistFind dep t.nodes = some d ∧
        d.status = GoalTreePy.GoalStatus.completed) := by
  refine ⟨List.perm_insertionSort _ _, List.sorted_insertionSort _ _,
    fun p => filter_priority_insertionSort _ p, ?_⟩
  intro g hg
  have hmem : g ∈ (t.nodes.map Prod.snd).filter fun g =>
      g.status = GoalTreePy.GoalStatus.pending &&
        GoalTreePy.dependenciesCompleted t.nodes g :=
    (List.perm_insertionSort GoalTreePy.priorityGE _).mem_iff.mp hg
  rw [List.mem_filter] at hmem
  obtain ⟨-, hpred⟩ := hmem
  rw [Bool.and_eq_true] at hpred
  obtain ⟨hstatus, hdeps⟩ := hpred
  refine ⟨by simpa using hstatus, ?_⟩
  intro dep hdep
  unfold GoalTreePy.dependenciesCompleted at hdeps
  rw [List.all_eq_true] at hdeps
  have h2 := hdeps dep hdep
  cases hfind : alistFind dep t.nodes with
  | none => rw [hfind] at h2; simp at h2
  | some d =>
    rw [hfind] at h2
    exact ⟨d, rfl, by simpa using h2⟩

/-- Claim C2 witness: in the two-goal scenario, goal "b" is ready and its
dependency "a" is indeed present and COMPLETED. -/
theorem getReadyGoals_spec_witness :
    (alistFind "a" treeAB.nodes).map GoalTreePy.GoalNode.status =
      some GoalTreePy.GoalStatus.completed := by
  have h := ((getReadyGoals_spec treeAB).2.2.2 nodeDepB
    (by
      have he : GoalTreePy.getReadyGoals treeAB = [nodeDepB] := rfl
      rw [he]
      simp)).2
    "a" (by simp [nodeDepB])
  obtain ⟨d, hd1, hd2⟩ := h
  rw [hd1]
  simp [hd2]

/-- Status tags decode back to the status they encode. -/
theorem GoalStatus_ofValue_value (s : GoalTreePy.GoalStatus) :
    GoalTreePy.GoalStatus.ofValue s.value = some s := by
  cases s <;> rfl

/-- Priority tags decode back to the priority they encode. -/
theorem GoalPriority_ofValue_value (p : GoalTreePy.GoalPriority) :
    GoalTreePy.GoalPriority.ofValue p.value = some p := by
  cases p <;> rfl

/-- Acceptance criteria survive the record round-trip. -/
theorem acceptance_roundtrip (acs : List GoalTreePy.AcceptanceCriteria) :
    ((acs.map fun ac =>
      ({ description := ac.description
         test_function := ac.test_function
         validation_rules := ac.validation_rules
         success_threshold := ac.success_threshold } : GoalTreePy.ACRecord)).map fun ac =>
      ({ description := ac.description
         test_function := ac.test_function
         validation_rules := ac.validation_rules
         success_threshold := ac.success_threshold } : GoalTreePy.AcceptanceCriteria)) = acs := by
  induction acs with
  | nil => rfl
  | cons a l ih => simp only [List.map_cons, ih]

/-- Every `GoalNode` field survives `from_dict(to_dict(n))`. -/
theorem GoalNode_fromDict_toDict (n : GoalTreePy.GoalNode) :
    GoalTreePy.GoalNode.fromDict (GoalTreePy.GoalNode.toDict n) = some n := by
  unfold GoalTreePy.GoalNode.fromDict GoalTreePy.GoalNode.toDict
  rw [GoalStatus_ofValue_value, GoalPriority_ofValue_value]
  simp only [Option.bind_eq_bind, Option.some_bind]
  rw [acceptance_roundtrip]

/-- Serialized nodes decode one by one back to the original pairs. -/
theorem nodes_mapM_roundtrip (nodes : List (String × GoalTreePy.GoalNode)) :
    (nodes.map fun p => (p.1, p.2.toDict)).mapM
        (fun p => do
          let node ← GoalTreePy.GoalNode.fromDict p.2
          some (p.1, node)) = some nodes := by
  induction nodes with
  | nil => rfl
  | cons p rest ih =>
    simp only [List.map_cons, List.mapM_cons, GoalNode_fromDict_toDict, ih]
    rfl

/-- Setting an absent key appends the binding. -/
theorem alistSet_absent {α : Type} (k : String) (v : α) (acc : List (String × α))
    (h : alistFind k acc = none) : alistSet k v acc = acc ++ [(k, v)] := by
  induction acc with
  | nil => rfl
  | cons p rest ih =>
    cases p with
    | mk k' v' =>
      by_cases hk : k' = k
      · exfalso
        simp [alistFind, hk] at h
      · simp only [alistFind, hk, if_neg, not_false_iff] at h
        simp [alistSet, hk, ih h]

/-- Lookup distributes over append. -/
theorem alistFind_append {α : Type} (k : String) (a b : List (String × α)) :
    alistFind k (a ++ b) =
      (match alistFind k a with
       | some v => some v
       | none => alistFind k b) := by
  induction a with
  | nil => rfl
  | cons p rest ih =>
    cases p with
    | mk k' v' =>
      by_cases hk : k' = k
      · simp [alistFind, hk]
      · simp [alistFind, hk, ih]

/-- Re-inserting uniquely-keyed pairs into an empty dict reproduces them
in order. -/
theorem foldl_alistSet_roundtrip {α : Type} :
    ∀ (l acc : List (String × α)), (l.map Prod.fst).Nodup →
      (∀ k ∈ l.map Prod.fst, alistFind k acc = none) →
      l.foldl (fun acc p => alistSet p.1 p.2 acc) acc = acc ++ l := by
  intro l
  induction l with
  | nil => intro acc _ _; simp
  | cons p rest ih =>
    intro acc hnodup habs
    rw [List.map_cons, List.nodup_cons] at hnodup
    simp only [List.foldl_cons]
    rw [alistSet_absent p.1 p.2 acc (habs p.1 (by simp))]
    rw [ih (acc ++ [p]) hnodup.2 ?_]
    · simp
    intro k hk
    rw [alistFind_append, habs k (by simp [hk])]
    have hne : p.1 ≠ k := fun he => hnodup.1 (he ▸ hk)
    cases p with
    | mk k' v' => simp_all [alistFind]

/-- Claim C7: deserializing a serialized goal tree reproduces it exactly:
`GoalTree.from_dict(GoalTree.to_dict(t))` yields the identical node map
(every `GoalNode` field round-trips, enums as their tags) and the same
root id order and timestamps. -/
theorem goalTree_roundtrip (t : GoalTreePy.GoalTree)
    (h : (t.nodes.map Prod.fst).Nodup) :
    GoalTreePy.GoalTree.fromDict (GoalTreePy.GoalTree.toDict t) = some t ∧
    ∀ n : GoalTreePy.GoalNode,
      GoalTreePy.GoalNode.fromDict (GoalTreePy.GoalNode.toDict n) = some n := by
  refine ⟨?_, GoalNode_fromDict_toDict⟩
  unfold GoalTreePy.GoalTree.fromDict GoalTreePy.GoalTree.toDict
  rw [nodes_mapM_roundtrip]
  simp only [Option.bind_eq_bind, Option.some_bind]
  rw [foldl_alistSet_roundtrip t.nodes [] h (by intro k _; rfl)]
  rfl

/-- Claim C7 witness: the two-goal tree round-trips. -/
theorem goalTree_roundtrip_witness :
    GoalTreePy.GoalTree.fromDict (GoalTreePy.GoalTree.toDict treeAB) = some treeAB :=
  (goalTree_roundtrip treeAB (by decide)).1
